import Mathlib

/-!
# Verification of the DMS coordinate decoder

Shallow embedding of `parse_coordinate_from_digits` and its callers from
`26-Jan/tz.py`, `26-Jan/find_cities.py` and `Jan-26/tz.py`.

A digit run is modelled as a `List Nat` whose entries are the digit values;
`IsDigitRun` records that every entry is below 10 (runs come from decimal
digit characters).  Magnitudes are rationals: the Python code computes with
exact small decimal fractions, modelled exactly in `ℚ`.  Python slices
`s[a:b]` become `(l.drop a).take (b - a)`, `int(s[a:b])` becomes
`digitsToNat` of that slice, and the `None`-returning decoder becomes an
`Option ℚ`-valued function.
-/

namespace TzCoords

/-- A run of decimal digits, as extracted from the grid file. -/
abbrev DigitRun := List Nat

/-- Every entry of the run is a decimal digit value. -/
def IsDigitRun (ds : DigitRun) : Prop := ∀ d ∈ ds, d < 10

instance : DecidablePred IsDigitRun := fun ds => by
  unfold IsDigitRun
  infer_instance

/-- Accumulator form of base-10 interpretation of a digit list,
mirroring Python `int(...)` on a slice of digit characters. -/
def digitsToNatAux (acc : Nat) : List Nat → Nat
  | [] => acc
  | d :: ds => digitsToNatAux (10 * acc + d) ds

/-- `int(digit_string)` on a slice: base-10 value of the digit list. -/
def digitsToNat (ds : List Nat) : Nat := digitsToNatAux 0 ds

@[simp] lemma digitsToNatAux_nil (acc : Nat) : digitsToNatAux acc [] = acc := rfl

@[simp] lemma digitsToNatAux_cons (acc d : Nat) (ds : List Nat) :
    digitsToNatAux acc (d :: ds) = digitsToNatAux (10 * acc + d) ds := rfl

/-- The trailing-fraction rule: `int(ds[k:]) / 10**(len-k)` when the run is
longer than `k`, else `0` (tz.py lines 114-115, 162-163 etc.). -/
def fracFrom (ds : DigitRun) (k : Nat) : ℚ :=
  if k < ds.length then (digitsToNat (ds.drop k) : ℚ) / 10 ^ (ds.length - k) else 0

/-- Longitude 3-2-2 candidate (tz.py lines 155-164): degrees `ds[0:3]`,
minutes `ds[3:5]`, seconds `ds[5:7]`, remainder fractional seconds. -/
def lonC322 (ds : DigitRun) : Option ℚ :=
  if 7 ≤ ds.length then
    let d := digitsToNat (ds.take 3)
    let m := digitsToNat ((ds.drop 3).take 2)
    let s := digitsToNat ((ds.drop 5).take 2)
    if d < 180 ∧ m < 60 ∧ s < 60 then
      some ((d : ℚ) + (m : ℚ) / 60 + ((s : ℚ) + fracFrom ds 7) / 3600)
    else none
  else none

/-- Longitude 2-2-2 candidate (tz.py lines 166-175): degrees `ds[0:2]`,
minutes `ds[2:4]`, seconds `ds[4:6]`, remainder fractional seconds. -/
def lonC222 (ds : DigitRun) : Option ℚ :=
  if 6 ≤ ds.length then
    let d := digitsToNat (ds.take 2)
    let m := digitsToNat ((ds.drop 2).take 2)
    let s := digitsToNat ((ds.drop 4).take 2)
    if d < 180 ∧ m < 60 ∧ s < 60 then
      some ((d : ℚ) + (m : ℚ) / 60 + ((s : ℚ) + fracFrom ds 6) / 3600)
    else none
  else none

/-- Longitude 2-2-3 candidate (tz.py lines 177-186): degrees `ds[0:2]`,
minutes `ds[2:4]`, seconds `ds[4:7]` (no `< 60` bound on seconds). -/
def lonC223 (ds : DigitRun) : Option ℚ :=
  if 7 ≤ ds.length then
    let d := digitsToNat (ds.take 2)
    let m := digitsToNat ((ds.drop 2).take 2)
    let s := digitsToNat ((ds.drop 4).take 3)
    if d < 180 ∧ m < 60 then
      some ((d : ℚ) + (m : ℚ) / 60 + ((s : ℚ) + fracFrom ds 7) / 3600)
    else none
  else none

/-- Longitude 2-3-2 candidate (tz.py lines 188-197): degrees `ds[0:2]`,
minutes `ds[2:5]`, seconds `ds[5:7]`; the code checks `minutes < 60`. -/
def lonC232 (ds : DigitRun) : Option ℚ :=
  if 7 ≤ ds.length then
    let d := digitsToNat (ds.take 2)
    let m := digitsToNat ((ds.drop 2).take 3)
    let s := digitsToNat ((ds.drop 5).take 2)
    if d < 180 ∧ m < 60 ∧ s < 60 then
      some ((d : ℚ) + (m : ℚ) / 60 + ((s : ℚ) + fracFrom ds 7) / 3600)
    else none
  else none

/-- Longitude fallback chain for shorter runs (tz.py lines 202-254):
dispatch on exact length 6, 5, 4, then `>= 3`, then `== 2`. -/
def lonFallback (ds : DigitRun) : Option ℚ :=
  let n := ds.length
  if n = 6 then
    let d := digitsToNat (ds.take 2)
    let m := digitsToNat ((ds.drop 2).take 2)
    let s := digitsToNat ((ds.drop 4).take 2)
    if d < 180 ∧ m < 60 ∧ s < 60 then
      some ((d : ℚ) + (m : ℚ) / 60 + (s : ℚ) / 3600)
    else
      let d3 := digitsToNat (ds.take 3)
      let m3 := digitsToNat ((ds.drop 3).take 2)
      let s3 := digitsToNat ((ds.drop 5).take 1)
      if d3 < 180 ∧ m3 < 60 then
        some ((d3 : ℚ) + (m3 : ℚ) / 60 + (s3 : ℚ) / 3600)
      else none
  else if n = 5 then
    let d := digitsToNat (ds.take 2)
    let m := digitsToNat ((ds.drop 2).take 2)
    let s := digitsToNat ((ds.drop 4).take 1)
    if d < 180 ∧ m < 60 then
      some ((d : ℚ) + (m : ℚ) / 60 + (s : ℚ) / 3600)
    else
      let d32 := digitsToNat (ds.take 3)
      let m32 := digitsToNat ((ds.drop 3).take 2)
      if d32 < 180 ∧ m32 < 60 then
        some ((d32 : ℚ) + (m32 : ℚ) / 60)
      else
        let d23 := digitsToNat (ds.take 2)
        let m23 := digitsToNat ((ds.drop 2).take 3)
        if d23 < 180 ∧ m23 < 60 then
          some ((d23 : ℚ) + (m23 : ℚ) / 60)
        else none
  else if n = 4 then
    let d := digitsToNat (ds.take 2)
    let m := digitsToNat ((ds.drop 2).take 2)
    if d < 180 ∧ m < 60 then
      some ((d : ℚ) + (m : ℚ) / 60)
    else
      let d31 := digitsToNat (ds.take 3)
      if d31 < 180 then some (d31 : ℚ) else none
  else if 3 ≤ n then
    let d := digitsToNat (ds.take 3)
    if d < 180 then
      if 3 < n then
        let m := digitsToNat (ds.drop 3)
        if m < 60 then some ((d : ℚ) + (m : ℚ) / 60) else some (d : ℚ)
      else some (d : ℚ)
    else none
  else if n = 2 then some ((digitsToNat ds : ℚ))
  else none

/-- The longitude branch of `parse_coordinate_from_digits`
(`max_digits_before_decimal == 3`, tz.py lines 151-254): the four
candidates are tried in order, then the length-based fallback chain. -/
def decodeLon (ds : DigitRun) : Option ℚ :=
  if ds.isEmpty then none
  else
    match lonC322 ds with
    | some r => some r
    | none =>
      match lonC222 ds with
      | some r => some r
      | none =>
        match lonC223 ds with
        | some r => some r
        | none =>
          match lonC232 ds with
          | some r => some r
          | none => lonFallback ds

/-- The latitude branch of `parse_coordinate_from_digits`
(`max_digits_before_decimal == 2`, tz.py lines 108-147): a single
length-determined split followed by the `minutes/seconds < 60` check. -/
def decodeLat (ds : DigitRun) : Option ℚ :=
  if ds.isEmpty then none
  else
    let n := ds.length
    let dms : Nat × Nat × ℚ :=
      if 6 ≤ n then
        (digitsToNat (ds.take 2), digitsToNat ((ds.drop 2).take 2),
          (digitsToNat ((ds.drop 4).take 2) : ℚ) + fracFrom ds 6)
      else if n = 5 then
        (digitsToNat (ds.take 2), digitsToNat ((ds.drop 2).take 2),
          (digitsToNat ((ds.drop 4).take 1) : ℚ))
      else if n = 4 then
        (digitsToNat (ds.take 2), digitsToNat ((ds.drop 2).take 2), 0)
      else if n = 3 then
        (digitsToNat (ds.take 2), digitsToNat ((ds.drop 2).take 1), 0)
      else (digitsToNat ds, 0, 0)
    if 60 ≤ dms.2.1 ∨ (60 : ℚ) ≤ dms.2.2 then none
    else some ((dms.1 : ℚ) + (dms.2.1 : ℚ) / 60 + dms.2.2 / 3600)

/-- The truncated longitude branch found in `find_cities.py` (lines 58-91):
only the 3-2-2 and 2-2-2 candidates, plus a length-6 retry of 2-2-2. -/
def decodeLonFC (ds : DigitRun) : Option ℚ :=
  if ds.isEmpty then none
  else
    match lonC322 ds with
    | some r => some r
    | none =>
      match lonC222 ds with
      | some r => some r
      | none =>
        if ds.length = 6 then
          let d := digitsToNat (ds.take 2)
          let m := digitsToNat ((ds.drop 2).take 2)
          let s := digitsToNat ((ds.drop 4).take 2)
          if d < 180 ∧ m < 60 ∧ s < 60 then
            some ((d : ℚ) + (m : ℚ) / 60 + (s : ℚ) / 3600)
          else none
        else none

end TzCoords

namespace TzCoords

/-! ## Reduction lemmas on explicitly destructured runs -/

lemma lonC322_cons (a b c d e f g : Nat) (rest : List Nat) :
    lonC322 (a :: b :: c :: d :: e :: f :: g :: rest) =
      if digitsToNat [a, b, c] < 180 ∧ digitsToNat [d, e] < 60 ∧ digitsToNat [f, g] < 60
      then some ((digitsToNat [a, b, c] : ℚ) + (digitsToNat [d, e] : ℚ) / 60 +
        ((digitsToNat [f, g] : ℚ) + fracFrom (a :: b :: c :: d :: e :: f :: g :: rest) 7) / 3600)
      else none := by
  have h7 : 7 ≤ (a :: b :: c :: d :: e :: f :: g :: rest).length := by
    simp [List.length_cons]
  simp [lonC322, h7, List.take, List.drop]

lemma lonC222_cons (a b c d e f : Nat) (rest : List Nat) :
    lonC222 (a :: b :: c :: d :: e :: f :: rest) =
      if digitsToNat [a, b] < 180 ∧ digitsToNat [c, d] < 60 ∧ digitsToNat [e, f] < 60
      then some ((digitsToNat [a, b] : ℚ) + (digitsToNat [c, d] : ℚ) / 60 +
        ((digitsToNat [e, f] : ℚ) + fracFrom (a :: b :: c :: d :: e :: f :: rest) 6) / 3600)
      else none := by
  have h6 : 6 ≤ (a :: b :: c :: d :: e :: f :: rest).length := by
    simp [List.length_cons]
  simp [lonC222, h6, List.take, List.drop]

lemma lonC223_cons (a b c d e f g : Nat) (rest : List Nat) :
    lonC223 (a :: b :: c :: d :: e :: f :: g :: rest) =
      if digitsToNat [a, b] < 180 ∧ digitsToNat [c, d] < 60
      then some ((digitsToNat [a, b] : ℚ) + (digitsToNat [c, d] : ℚ) / 60 +
        ((digitsToNat [e, f, g] : ℚ) + fracFrom (a :: b :: c :: d :: e :: f :: g :: rest) 7) / 3600)
      else none := by
  have h7 : 7 ≤ (a :: b :: c :: d :: e :: f :: g :: rest).length := by
    simp [List.length_cons]
  simp [lonC223, h7, List.take, List.drop]

lemma lonC232_cons (a b c d e f g : Nat) (rest : List Nat) :
    lonC232 (a :: b :: c :: d :: e :: f :: g :: rest) =
      if digitsToNat [a, b] < 180 ∧ digitsToNat [c, d, e] < 60 ∧ digitsToNat [f, g] < 60
      then some ((digitsToNat [a, b] : ℚ) + (digitsToNat [c, d, e] : ℚ) / 60 +
        ((digitsToNat [f, g] : ℚ) + fracFrom (a :: b :: c :: d :: e :: f :: g :: rest) 7) / 3600)
      else none := by
  have h7 : 7 ≤ (a :: b :: c :: d :: e :: f :: g :: rest).length := by
    simp [List.length_cons]
  simp [lonC232, h7, List.take, List.drop]

/-- Whenever the 3-2-2 candidate validates, `decodeLon` returns its value:
the later candidates and fallbacks are not consulted. -/
lemma decodeLon_of_c322 (ds : DigitRun) (v : ℚ) (h : lonC322 ds = some v) :
    decodeLon ds = some v := by
  have hne : ds.isEmpty = false := by
    cases ds with
    | nil => simp [lonC322] at h
    | cons x xs => rfl
  simp [decodeLon, hne, h]

/-- C2: on the longitude run 3031976 the 3-2-2 split is rejected
(degrees 303 ≥ 180), the 2-2-2 split is rejected (seconds 97 ≥ 60), and
the 2-2-3 split (degrees 30, minutes 31, seconds 976, no bound on the
3-digit seconds field) is the first validating candidate, so decode
returns 30 + 31/60 + 976/3600. -/
theorem c2_priority_chain_3031976 :
    digitsToNat (([3, 0, 3, 1, 9, 7, 6] : DigitRun).take 3) = 303 ∧
    digitsToNat ((([3, 0, 3, 1, 9, 7, 6] : DigitRun).drop 4).take 2) = 97 ∧
    lonC322 [3, 0, 3, 1, 9, 7, 6] = none ∧
    lonC222 [3, 0, 3, 1, 9, 7, 6] = none ∧
    lonC223 [3, 0, 3, 1, 9, 7, 6] = some (30 + 31 / 60 + 976 / 3600 : ℚ) ∧
    decodeLon [3, 0, 3, 1, 9, 7, 6] = some (30 + 31 / 60 + 976 / 3600 : ℚ) := by
  norm_num [decodeLon, lonC322, lonC222, lonC223, lonC232, digitsToNat, fracFrom,
    List.take, List.drop]

/-- C8: the longitude run 04229 has length 5, the 2-2-1 fallback
(degrees 4, minutes 22, seconds 9) validates first, and decode returns
4 + 22/60 + 9/3600 without using the later 3-2 or 2-3 candidates. -/
theorem c8_length5_221_04229 :
    decodeLon [0, 4, 2, 2, 9] = some (4 + 22 / 60 + 9 / 3600 : ℚ) := by
  norm_num [decodeLon, lonC322, lonC222, lonC223, lonC232, lonFallback, digitsToNat,
    fracFrom, List.take, List.drop]

/-- C1: on every longitude digit run of length at least 7 on which both the
3-2-2 split and the 2-2-2 split satisfy the range predicate, `decodeLon`
returns the magnitude of the 3-2-2 split; and in general the 2-2-2 candidate
is consulted only when the 3-2-2 candidate produced no valid result, since a
valid 3-2-2 result is returned directly. -/
theorem c1_longitude_322_priority :
    (∀ (a b c d e f g : Nat) (rest : List Nat),
      IsDigitRun (a :: b :: c :: d :: e :: f :: g :: rest) →
      digitsToNat [a, b, c] < 180 → digitsToNat [d, e] < 60 → digitsToNat [f, g] < 60 →
      digitsToNat [a, b] < 180 → digitsToNat [c, d] < 60 → digitsToNat [e, f] < 60 →
      decodeLon (a :: b :: c :: d :: e :: f :: g :: rest) =
        some ((digitsToNat [a, b, c] : ℚ) + (digitsToNat [d, e] : ℚ) / 60 +
          ((digitsToNat [f, g] : ℚ) +
            fracFrom (a :: b :: c :: d :: e :: f :: g :: rest) 7) / 3600)) ∧
    (∀ (ds : DigitRun) (v : ℚ), lonC322 ds = some v → decodeLon ds = some v) := by
  constructor
  · intro a b c d e f g rest _ h1 h2 h3 _ _ _
    exact decodeLon_of_c322 _ _ (by rw [lonC322_cons, if_pos ⟨h1, h2, h3⟩])
  · exact decodeLon_of_c322

/-- C1 witness: on 1000000 both the 3-2-2 split (100°0′0″) and the 2-2-2
split (10°0′0″) validate, and decode returns the 3-2-2 magnitude 100. -/
theorem c1_longitude_322_priority_w :
    decodeLon [1, 0, 0, 0, 0, 0, 0] = some (100 : ℚ) := by
  have h := c1_longitude_322_priority.1 1 0 0 0 0 0 0 []
    (by decide) (by decide) (by decide) (by decide) (by decide) (by decide) (by decide)
  rw [h]
  norm_num [digitsToNat, fracFrom]

lemma decodeLat_cons6 (a b c d e f : Nat) (rest : List Nat) :
    decodeLat (a :: b :: c :: d :: e :: f :: rest) =
      if 60 ≤ digitsToNat [c, d] ∨
          (60 : ℚ) ≤ (digitsToNat [e, f] : ℚ) + fracFrom (a :: b :: c :: d :: e :: f :: rest) 6
      then none
      else some ((digitsToNat [a, b] : ℚ) + (digitsToNat [c, d] : ℚ) / 60 +
        ((digitsToNat [e, f] : ℚ) +
          fracFrom (a :: b :: c :: d :: e :: f :: rest) 6) / 3600) := by
  have h6 : 6 ≤ (a :: b :: c :: d :: e :: f :: rest).length := by
    simp [List.length_cons]
  simp [decodeLat, h6, List.take, List.drop]

/-- C3: on every latitude digit run of length at least 6 the decoder applies
the single fixed split degrees `ds[0:2]`, minutes `ds[2:4]`, seconds `ds[4:6]`
with trailing digits as a decimal fraction of a second; it succeeds with
magnitude degrees + minutes/60 + seconds/3600 exactly when minutes < 60 and
seconds < 60, and fails (with no fallback) otherwise. -/
theorem c3_latitude_fixed_split :
    ∀ (a b c d e f : Nat) (rest : List Nat),
      IsDigitRun (a :: b :: c :: d :: e :: f :: rest) →
      (digitsToNat [c, d] < 60 →
        (digitsToNat [e, f] : ℚ) + fracFrom (a :: b :: c :: d :: e :: f :: rest) 6 < 60 →
        decodeLat (a :: b :: c :: d :: e :: f :: rest) =
          some ((digitsToNat [a, b] : ℚ) + (digitsToNat [c, d] : ℚ) / 60 +
            ((digitsToNat [e, f] : ℚ) +
              fracFrom (a :: b :: c :: d :: e :: f :: rest) 6) / 3600)) ∧
      (60 ≤ digitsToNat [c, d] ∨
          (60 : ℚ) ≤ (digitsToNat [e, f] : ℚ) + fracFrom (a :: b :: c :: d :: e :: f :: rest) 6 →
        decodeLat (a :: b :: c :: d :: e :: f :: rest) = none) := by
  intro a b c d e f rest _
  constructor
  · intro hm hs
    rw [decodeLat_cons6, if_neg]
    push_neg
    exact ⟨by omega, hs⟩
  · intro h
    rw [decodeLat_cons6, if_pos h]

/-- C3 witness: `decode("324506", Latitude)` gives degrees 32, minutes 45,
seconds 6, magnitude 32 + 45/60 + 6/3600. -/
theorem c3_latitude_fixed_split_w :
    decodeLat [3, 2, 4, 5, 0, 6] = some (32 + 45 / 60 + 6 / 3600 : ℚ) := by
  have h := (c3_latitude_fixed_split 3 2 4 5 0 6 [] (by decide)).1
    (by decide) (by norm_num [digitsToNat, fracFrom])
  rw [h]
  norm_num [digitsToNat, fracFrom]

/-- When all four multi-field longitude candidates fail, `decodeLon`
continues with the length-based fallback chain. -/
lemma decodeLon_eq_fallback (ds : DigitRun) (hne : ds ≠ [])
    (h1 : lonC322 ds = none) (h2 : lonC222 ds = none)
    (h3 : lonC223 ds = none) (h4 : lonC232 ds = none) :
    decodeLon ds = lonFallback ds := by
  have hne' : ds.isEmpty = false := by
    cases ds with
    | nil => exact absurd rfl hne
    | cons x xs => rfl
  simp [decodeLon, hne', h1, h2, h3, h4]

/-- Failure of the 2-2-3 candidate on a run of length at least 7 means its
minutes field `ds[2:4]` is at least 60 (the 2-digit degrees field is always
below 180 for digit runs). -/
lemma c223_none_minutes (a b c d e f g : Nat) (rest : List Nat)
    (hdr : IsDigitRun (a :: b :: c :: d :: e :: f :: g :: rest))
    (h : lonC223 (a :: b :: c :: d :: e :: f :: g :: rest) = none) :
    60 ≤ digitsToNat [c, d] := by
  have ha : a < 10 := hdr a (by simp)
  have hb : b < 10 := hdr b (by simp)
  by_contra hlt
  push_neg at hlt
  have hab : digitsToNat [a, b] < 180 := by
    simp [digitsToNat]
    omega
  rw [lonC223_cons, if_pos ⟨hab, hlt⟩] at h
  exact Option.some_ne_none _ h

/-- C5 amended: on a run of length at least 7, once the 2-2-3 candidate has
failed, its minutes field `ds[2:4]` is at least 60, so the 3-digit minutes
field `ds[2:5]` of the 2-3-2 candidate is at least 600 and, with the `minutes < 60`
bound the code enforces on it, the 2-3-2 candidate never validates; decoding
then proceeds to the later length-based fallbacks. -/
theorem c5_232_never_validates :
    ∀ (a b c d e f g : Nat) (rest : List Nat),
      IsDigitRun (a :: b :: c :: d :: e :: f :: g :: rest) →
      lonC223 (a :: b :: c :: d :: e :: f :: g :: rest) = none →
      lonC232 (a :: b :: c :: d :: e :: f :: g :: rest) = none ∧
      (lonC322 (a :: b :: c :: d :: e :: f :: g :: rest) = none →
        lonC222 (a :: b :: c :: d :: e :: f :: g :: rest) = none →
        decodeLon (a :: b :: c :: d :: e :: f :: g :: rest) =
          lonFallback (a :: b :: c :: d :: e :: f :: g :: rest)) := by
  intro a b c d e f g rest hdr h223
  have hcd : 60 ≤ digitsToNat [c, d] := c223_none_minutes a b c d e f g rest hdr h223
  have h232 : lonC232 (a :: b :: c :: d :: e :: f :: g :: rest) = none := by
    rw [lonC232_cons, if_neg]
    rintro ⟨-, hm, -⟩
    simp [digitsToNat] at hm hcd
    omega
  refine ⟨h232, fun h322 h222 => ?_⟩
  exact decodeLon_eq_fallback _ (by simp) h322 h222 h223 h232

/-- C5 counterexample: on 1966100 the 3-2-2, 2-2-2 and 2-2-3 candidates all
fail, the 2-3-2 split has degrees 19 < 180 and seconds 0 < 60 (so the claim
predicts acceptance with magnitude 19 + 661/60), yet decode returns failure:
the code additionally requires the 3-digit minutes field 661 to be < 60. -/
theorem c5_232_never_validates_cex :
    lonC322 [1, 9, 6, 6, 1, 0, 0] = none ∧
    lonC222 [1, 9, 6, 6, 1, 0, 0] = none ∧
    lonC223 [1, 9, 6, 6, 1, 0, 0] = none ∧
    digitsToNat (([1, 9, 6, 6, 1, 0, 0] : DigitRun).take 2) < 180 ∧
    digitsToNat ((([1, 9, 6, 6, 1, 0, 0] : DigitRun).drop 5).take 2) < 60 ∧
    decodeLon [1, 9, 6, 6, 1, 0, 0] = none := by
  refine ⟨?_, ?_, ?_, by decide, by decide, ?_⟩ <;>
    norm_num [decodeLon, lonC322, lonC222, lonC223, lonC232, lonFallback,
      digitsToNat, List.take, List.drop]

/-- C5 witness: the amended theorem applied to 1966100. -/
theorem c5_232_never_validates_w :
    lonC232 [1, 9, 6, 6, 1, 0, 0] = none ∧
    decodeLon [1, 9, 6, 6, 1, 0, 0] = lonFallback [1, 9, 6, 6, 1, 0, 0] := by
  have h := c5_232_never_validates 1 9 6 6 1 0 0 [] (by decide)
    (by norm_num [lonC223, digitsToNat, List.take, List.drop])
  exact ⟨h.1, h.2
    (by norm_num [lonC322, digitsToNat, List.take, List.drop])
    (by norm_num [lonC222, digitsToNat, List.take, List.drop])⟩

/-- Modelled from the spec: the documented longitude priority list (spec
section 4.1, items 1 to 9), as a validity predicate.  Each disjunct is one
candidate, gated on run length exactly as documented, with the documented
range predicate (items 4, 6 and 8 as written: the 2-3-2 candidate has no
minutes bound, the length-5 2-3 candidate has no minutes bound, and the
length-3 candidate only needs degrees < 180). -/
def specLonCandidateValid (ds : DigitRun) : Prop :=
  (7 ≤ ds.length ∧ digitsToNat (ds.take 3) < 180 ∧
    digitsToNat ((ds.drop 3).take 2) < 60 ∧ digitsToNat ((ds.drop 5).take 2) < 60) ∨
  (6 ≤ ds.length ∧ digitsToNat (ds.take 2) < 180 ∧
    digitsToNat ((ds.drop 2).take 2) < 60 ∧ digitsToNat ((ds.drop 4).take 2) < 60) ∨
  (7 ≤ ds.length ∧ digitsToNat (ds.take 2) < 180 ∧ digitsToNat ((ds.drop 2).take 2) < 60) ∨
  (7 ≤ ds.length ∧ digitsToNat (ds.take 2) < 180 ∧ digitsToNat ((ds.drop 5).take 2) < 60) ∨
  (ds.length = 6 ∧ digitsToNat (ds.take 3) < 180 ∧ digitsToNat ((ds.drop 3).take 2) < 60) ∨
  (ds.length = 5 ∧ digitsToNat (ds.take 2) < 180 ∧ digitsToNat ((ds.drop 2).take 2) < 60) ∨
  (ds.length = 5 ∧ digitsToNat (ds.take 3) < 180 ∧ digitsToNat ((ds.drop 3).take 2) < 60) ∨
  (ds.length = 5 ∧ digitsToNat (ds.take 2) < 180) ∨
  (ds.length = 4 ∧ digitsToNat (ds.take 2) < 180 ∧ digitsToNat ((ds.drop 2).take 2) < 60) ∨
  (ds.length = 4 ∧ digitsToNat (ds.take 3) < 180) ∨
  (ds.length = 3 ∧ digitsToNat (ds.take 3) < 180) ∨
  ds.length = 2

instance : DecidablePred specLonCandidateValid := fun ds => by
  unfold specLonCandidateValid
  infer_instance

/-- Reduction of the fallback chain on runs of length at least 7: only the
degrees-only branch (first three digits, remaining digits as minutes when
below 60) applies. -/
lemma lonFallback_cons7 (a b c d e f g : Nat) (rest : List Nat) :
    lonFallback (a :: b :: c :: d :: e :: f :: g :: rest) =
      if digitsToNat [a, b, c] < 180 then
        some ((digitsToNat [a, b, c] : ℚ) +
          (if digitsToNat (d :: e :: f :: g :: rest) < 60
           then (digitsToNat (d :: e :: f :: g :: rest) : ℚ) / 60 else 0))
      else none := by
  have h6 : ¬((a :: b :: c :: d :: e :: f :: g :: rest).length = 6) := by
    simp only [List.length_cons]
    omega
  have h5 : ¬((a :: b :: c :: d :: e :: f :: g :: rest).length = 5) := by
    simp only [List.length_cons]
    omega
  have h4 : ¬((a :: b :: c :: d :: e :: f :: g :: rest).length = 4) := by
    simp only [List.length_cons]
    omega
  have h3 : 3 ≤ (a :: b :: c :: d :: e :: f :: g :: rest).length := by
    simp only [List.length_cons]
    omega
  have h3' : 3 < (a :: b :: c :: d :: e :: f :: g :: rest).length := by
    simp only [List.length_cons]
    omega
  simp only [lonFallback, h6, h5, h4, h3, h3', if_true, if_false, ite_true, ite_false,
    List.take_succ_cons, List.take_zero, List.drop_succ_cons, List.drop_zero]
  by_cases hd : digitsToNat [a, b, c] < 180
  · rw [if_pos hd, if_pos hd]
    by_cases hm : digitsToNat (d :: e :: f :: g :: rest) < 60
    · rw [if_pos hm, if_pos hm]
    · rw [if_neg hm, if_neg hm]
      norm_num
  · rw [if_neg hd, if_neg hd]

/-- C4 amended: decode fails on the empty run for either axis kind, and for
longitude on every run of length 1; but failure is not equivalent to the
documented priority list having no valid candidate: on a run of length at
least 7 whose 3-2-2, 2-2-2 and 2-2-3 candidates all failed (the 2-3-2
candidate then never validates), decode falls back to taking the first three
digits as whole degrees, with all remaining digits as minutes when they are
below 60, succeeding exactly when those three digits are below 180. -/
theorem c4_failure_conditions :
    decodeLat [] = none ∧ decodeLon [] = none ∧
    (∀ x : Nat, x < 10 → decodeLon [x] = none) ∧
    (∀ (a b c d e f g : Nat) (rest : List Nat),
      IsDigitRun (a :: b :: c :: d :: e :: f :: g :: rest) →
      lonC322 (a :: b :: c :: d :: e :: f :: g :: rest) = none →
      lonC222 (a :: b :: c :: d :: e :: f :: g :: rest) = none →
      lonC223 (a :: b :: c :: d :: e :: f :: g :: rest) = none →
      decodeLon (a :: b :: c :: d :: e :: f :: g :: rest) =
        if digitsToNat [a, b, c] < 180 then
          some ((digitsToNat [a, b, c] : ℚ) +
            (if digitsToNat (d :: e :: f :: g :: rest) < 60
             then (digitsToNat (d :: e :: f :: g :: rest) : ℚ) / 60 else 0))
        else none) := by
  refine ⟨by norm_num [decodeLat], by norm_num [decodeLon, lonC322, lonC222, lonC223,
    lonC232, lonFallback], ?_, ?_⟩
  · intro x _
    norm_num [decodeLon, lonC322, lonC222, lonC223, lonC232, lonFallback]
  · intro a b c d e f g rest hdr h322 h222 h223
    have h := (c5_232_never_validates a b c d e f g rest hdr h223).2 h322 h222
    rw [h, lonFallback_cons7]

/-- C4 counterexample: on 0966666 no candidate of the documented priority
list applicable at length 7 validates (items 1 to 4 all fail, items 5 to 9
require lengths 6 and below), yet decode succeeds with 96 via the
degrees-only fallback on the first three digits. -/
theorem c4_failure_conditions_cex :
    ¬ specLonCandidateValid [0, 9, 6, 6, 6, 6, 6] ∧
    decodeLon [0, 9, 6, 6, 6, 6, 6] = some (96 : ℚ) := by
  constructor
  · decide
  · norm_num [decodeLon, lonC322, lonC222, lonC223, lonC232, lonFallback,
      digitsToNat, List.take, List.drop]

/-- C4 witness: the longitude fallback clause of the amended theorem applied
to 0966666, together with its closed clauses. -/
theorem c4_failure_conditions_w :
    decodeLon [0, 9, 6, 6, 6, 6, 6] = some ((96 : ℚ) + 0) ∧ decodeLon [7] = none := by
  constructor
  · have h := c4_failure_conditions.2.2.2 0 9 6 6 6 6 6 [] (by decide)
      (by norm_num [lonC322, digitsToNat, List.take, List.drop])
      (by norm_num [lonC222, digitsToNat, List.take, List.drop])
      (by norm_num [lonC223, digitsToNat, List.take, List.drop])
    rw [h]
    norm_num [digitsToNat]
  · exact c4_failure_conditions.2.2.1 7 (by norm_num)

/-! ## Pair validation before timezone lookup -/

/-- The per-pair bound check of `26-Jan/tz.py` `main` (lines 520-527): an
out-of-range signed pair is reported and skipped (`none`), otherwise the
pair is passed unchanged to the timezone lookup (`some`). -/
def tzPairFilter (latVal lonVal : ℚ) : Option (ℚ × ℚ) :=
  if 90 < |latVal| ∨ 180 < |lonVal| then none else some (latVal, lonVal)

/-- The per-pair bound check of `Jan-26/tz.py` `main` (lines 345-360): an
out-of-range pair is first retried with latitude and longitude swapped, and
is skipped only if the swapped pair is also out of range. -/
def tzPairFilterSwap (rowVal colVal : ℚ) : Option (ℚ × ℚ) :=
  if 90 < |rowVal| ∨ 180 < |colVal| then
    if 90 < |colVal| ∨ 180 < |rowVal| then none
    else some (colVal, rowVal)
  else some (rowVal, colVal)

/-- C6 counterexample: the pair (99, 50) is decodable (latitude run 990000
gives 99, longitude run 500000 gives 50), fails the latitude bound check
`|lat| <= 90`, yet the `Jan-26/tz.py` variant passes it downstream in
swapped form rather than skipping it. -/
theorem c6_bound_check_cex :
    decodeLat [9, 9, 0, 0, 0, 0] = some (99 : ℚ) ∧
    decodeLon [5, 0, 0, 0, 0, 0] = some (50 : ℚ) ∧
    (90 : ℚ) < |(99 : ℚ)| ∧
    tzPairFilterSwap 99 50 = some (50, 99) := by
  refine ⟨?_, ?_, by norm_num, ?_⟩
  · norm_num [decodeLat, digitsToNat, fracFrom, List.take, List.drop]
  · norm_num [decodeLon, lonC322, lonC222, lonC223, lonC232, lonFallback,
      digitsToNat, fracFrom, List.take, List.drop]
  · norm_num [tzPairFilterSwap]

/-- C6 amended: both variants check the signed pair against the axis bounds
before any lookup; `26-Jan/tz.py` skips a failing pair outright and passes a
passing pair unchanged, while `Jan-26/tz.py` retries a failing pair with the
two values swapped and skips it only if the swapped pair also fails. -/
theorem c6_bound_check :
    (∀ la lo : ℚ, 90 < |la| ∨ 180 < |lo| → tzPairFilter la lo = none) ∧
    (∀ la lo : ℚ, |la| ≤ 90 → |lo| ≤ 180 → tzPairFilter la lo = some (la, lo)) ∧
    (∀ r c : ℚ, 90 < |r| ∨ 180 < |c| → 90 < |c| ∨ 180 < |r| →
      tzPairFilterSwap r c = none) ∧
    (∀ r c : ℚ, 90 < |r| ∨ 180 < |c| → |c| ≤ 90 → |r| ≤ 180 →
      tzPairFilterSwap r c = some (c, r)) := by
  refine ⟨fun la lo h => if_pos h, fun la lo h1 h2 => ?_,
    fun r c h1 h2 => ?_, fun r c h1 h2 h3 => ?_⟩
  · rw [tzPairFilter, if_neg]
    push_neg
    exact ⟨h1, h2⟩
  · rw [tzPairFilterSwap, if_pos h1, if_pos h2]
  · rw [tzPairFilterSwap, if_pos h1, if_neg]
    push_neg
    exact ⟨h2, h3⟩

/-- C6 witness: the amended theorem at concrete pairs, covering the skip
case of scenario 8.6 (latitude 95 is rejected in `26-Jan/tz.py`) and the
swap case of `Jan-26/tz.py` on the pair (99, 50). -/
theorem c6_bound_check_w :
    tzPairFilter 95 100 = none ∧ tzPairFilter 45 100 = some (45, 100) ∧
    tzPairFilterSwap 95 100 = none ∧ tzPairFilterSwap 99 50 = some (50, 99) := by
  refine ⟨c6_bound_check.1 95 100 (by norm_num),
    c6_bound_check.2.1 45 100 (by norm_num) (by norm_num),
    c6_bound_check.2.2.1 95 100 (by norm_num) (by norm_num),
    c6_bound_check.2.2.2 99 50 (by norm_num) (by norm_num) (by norm_num)⟩

/-! ## Sign resolution -/

/-- The per-character sign rule of the offsets file (tz.py lines 440, 444):
a plus character maps to sign -1 and any other character to +1. -/
def signOfChar (c : Char) : Int := if c = '+' then -1 else 1

/-- One line of the offsets file becomes a list of signs (tz.py lines
440 and 444). -/
def signsOfLine (line : List Char) : List Int := line.map signOfChar

/-- The sign used at a coordinate position (tz.py lines 508-509): the entry
of the sign list when the position is covered, else the default +1; a
missing offsets file leaves the sign list empty, so every position gets the
default. -/
def signAt (signs : List Int) (i : Nat) : Int :=
  if h : i < signs.length then signs.get ⟨i, h⟩ else 1

/-- The signed coordinate value (tz.py lines 512-513): decoded magnitude
times resolved sign. -/
def applySign (magnitude : ℚ) (sign : Int) : ℚ := magnitude * sign

/-- C7: a '+' character in the sign file maps to sign -1 and any other
character to +1; a position not covered by the sign list (in particular
every position when the file is missing and the list is empty) gets the
default sign +1; and the signed value is the decoded magnitude multiplied
by the resolved sign. -/
theorem c7_sign_resolution :
    (∀ (line : List Char) (i : Nat) (h : i < line.length),
      signAt (signsOfLine line) i = if line.get ⟨i, h⟩ = '+' then -1 else 1) ∧
    (∀ (signs : List Int) (i : Nat), signs.length ≤ i → signAt signs i = 1) ∧
    (∀ (m : ℚ) (s : Int), applySign m s = m * s) := by
  refine ⟨fun line i h => ?_, fun signs i h => ?_, fun m s => rfl⟩
  · have hlen : i < (signsOfLine line).length := by
      simpa [signsOfLine] using h
    rw [signAt, dif_pos hlen]
    simp [signsOfLine, signOfChar]
  · rw [signAt, dif_neg (by omega)]

/-- C7 witness: scenario 8.5 of the spec: magnitude 45 with sign character
'+' resolves to sign -1 and signed value -45; an uncovered position (empty
sign list, as with a missing file) defaults to +1. -/
theorem c7_sign_resolution_w :
    signAt (signsOfLine ['+']) 0 = -1 ∧
    signAt ([] : List Int) 3 = 1 ∧
    applySign 45 (-1) = 45 * (-1 : Int) := by
  refine ⟨?_, c7_sign_resolution.2.1 [] 3 (by norm_num), c7_sign_resolution.2.2 45 (-1)⟩
  have h := c7_sign_resolution.1 ['+'] 0 (by norm_num)
  simpa using h

/-! ## The find_cities salvage path and the 12-entry pipelines -/

/-- The salvage interpretation `find_cities.py` applies to a run the decoder
rejected (lines 288-304 for columns with bound 180, lines 326-341 for rows
with bound 90): last two digits are seconds, the two before are minutes, the
rest are degrees; seconds at least 60 carry into minutes, minutes at least
60 carry into degrees, and degrees strictly above the bound are reduced
modulo the bound. -/
def fcSalvage (bound : Nat) (r : DigitRun) : ℚ :=
  if 4 ≤ r.length then
    let s0 := digitsToNat (r.drop (r.length - 2))
    let m0 := digitsToNat ((r.drop (r.length - 4)).take 2)
    let d0 := if 4 < r.length then digitsToNat (r.take (r.length - 4)) else 0
    let m1 := if 60 ≤ s0 then m0 + s0 / 60 else m0
    let s1 := if 60 ≤ s0 then s0 % 60 else s0
    let d1 := if 60 ≤ m1 then d0 + m1 / 60 else d0
    let m2 := if 60 ≤ m1 then m1 % 60 else m1
    let d2 := if bound < d1 then d1 % bound else d1
    (d2 : ℚ) + (m2 : ℚ) / 60 + (s1 : ℚ) / 3600
  else 0

/-- The per-row coordinate of `find_cities.py` `main` (lines 319-346): the
decoded magnitude when the decoder accepts, else the salvage value (bound
90) for runs of length at least 4, else 0. -/
def fcRowCoord (r : DigitRun) : ℚ :=
  match decodeLat r with
  | some c => |c|
  | none => if 4 ≤ r.length then |fcSalvage 90 r| else 0

/-- The per-column coordinate of `find_cities.py` `main` (lines 281-310):
the decoded magnitude when the decoder accepts, else the salvage value
(bound 180) for runs of length at least 4, else 0. -/
def fcColCoord (r : DigitRun) : ℚ :=
  match decodeLonFC r with
  | some c => |c|
  | none => if 4 ≤ r.length then |fcSalvage 180 r| else 0

/-- Placeholder row entry used by the padding loop (find_cities.py line 349). -/
def fcPadRow : DigitRun × ℚ := ([0, 0, 0, 0, 0, 0], 0)

/-- Placeholder column entry used by the padding loop (find_cities.py line 354). -/
def fcPadCol : DigitRun × ℚ := ([0, 0, 0, 0, 0, 0, 0], 0)

/-- The row sequence of `find_cities.py` (lines 314-350): every cleaned
non-empty run contributes an entry, then the sequence is padded with the
placeholder and truncated to exactly 12 entries. -/
def fcRows (runs : List DigitRun) : List (DigitRun × ℚ) :=
  ((runs.map fun r => (r, fcRowCoord r)) ++
    List.replicate (12 - runs.length) fcPadRow).take 12

/-- The column sequence of `find_cities.py` (lines 273-355): analogous to
`fcRows` with the column coordinate and placeholder. -/
def fcCols (runs : List DigitRun) : List (DigitRun × ℚ) :=
  ((runs.map fun r => (r, fcColCoord r)) ++
    List.replicate (12 - runs.length) fcPadCol).take 12

/-- The row sequence of `26-Jan/tz.py` `main` (lines 470-480): only runs the
decoder accepts are kept, and the list is truncated to at most 12 entries
with no padding. -/
def tzRows (runs : List DigitRun) : List (DigitRun × ℚ) :=
  (runs.filterMap fun r => (decodeLat r).map fun c => (r, |c|)).take 12

/-- The column sequence of `26-Jan/tz.py` `main` (lines 452-465): only runs
the decoder accepts are kept; no padding (the loop ranges over at most 12
column positions). -/
def tzCols (runs : List DigitRun) : List (DigitRun × ℚ) :=
  runs.filterMap fun r => (decodeLon r).map fun c => (r, |c|)

/-- The number of pairs `26-Jan/tz.py` processes (line 496):
`min(len(rows), len(columns))`. -/
def tzNumPairs (rowRuns colRuns : List DigitRun) : Nat :=
  min (tzRows rowRuns).length (tzCols colRuns).length

/-- C9 counterexample: with a rows section holding the single run 999999
(whose minutes field 99 is rejected by the decoder), the `26-Jan/tz.py` row
sequence has 0 entries, not 12, and the downstream pairing against a column
section decoding to one entry operates on 0 pairs, not 12. -/
theorem c9_twelve_entries_cex :
    (tzRows [[9, 9, 9, 9, 9, 9]]).length = 0 ∧
    (tzRows [[9, 9, 9, 9, 9, 9]]).length ≠ 12 ∧
    tzNumPairs [[9, 9, 9, 9, 9, 9]] [[1, 0, 0, 0, 0, 0, 0]] ≠ 12 := by
  have hrow : decodeLat [9, 9, 9, 9, 9, 9] = none := by
    norm_num [decodeLat, digitsToNat, fracFrom, List.take, List.drop]
  have hcol : decodeLon [1, 0, 0, 0, 0, 0, 0] = some (100 : ℚ) := by
    have h := decodeLon_of_c322 [1, 0, 0, 0, 0, 0, 0] 100
    apply h
    norm_num [lonC322, digitsToNat, fracFrom, List.take, List.drop]
  refine ⟨?_, ?_, ?_⟩ <;>
    simp [tzNumPairs, tzRows, tzCols, hrow, hcol]

/-- C9 amended: `find_cities.py` truncates or pads both sequences to exactly
12 entries; the `tz.py` variants only truncate rows to at most 12 and keep
only successfully decoded columns with no padding, so the downstream pairing
operates on `min(len(rows), len(columns))` pairs, which can be fewer
than 12. -/
theorem c9_twelve_entries :
    (∀ runs : List DigitRun, (fcRows runs).length = 12) ∧
    (∀ runs : List DigitRun, (fcCols runs).length = 12) ∧
    (∀ runs : List DigitRun, (tzRows runs).length ≤ 12) ∧
    (∀ rowRuns colRuns : List DigitRun,
      tzNumPairs rowRuns colRuns ≤ (tzRows rowRuns).length ∧
      tzNumPairs rowRuns colRuns ≤ (tzCols colRuns).length) := by
  refine ⟨fun runs => ?_, fun runs => ?_, fun runs => ?_, fun rowRuns colRuns => ?_⟩
  · simp [fcRows]
    omega
  · simp [fcCols]
    omega
  · simp [tzRows]
  · exact ⟨Nat.min_le_left _ _, Nat.min_le_right _ _⟩

/-- On a run written as `init ++ [w, x, y, z]`, the salvage value takes
`[y, z]` as seconds, `[w, x]` as minutes and `init` as degrees, with the
carries expressible by unconditional division and remainder (the two-digit
seconds field is below 100, so each carry is at most 1). -/
lemma fcSalvage_append (bound : Nat) (init : List Nat) (w x y z : Nat)
    (hy : y < 10) (hz : z < 10) :
    fcSalvage bound (init ++ [w, x, y, z]) =
      ((if bound < digitsToNat init + (digitsToNat [w, x] + digitsToNat [y, z] / 60) / 60
        then (digitsToNat init + (digitsToNat [w, x] + digitsToNat [y, z] / 60) / 60) % bound
        else digitsToNat init + (digitsToNat [w, x] + digitsToNat [y, z] / 60) / 60 : ℕ) : ℚ)
      + (((digitsToNat [w, x] + digitsToNat [y, z] / 60) % 60 : ℕ) : ℚ) / 60
      + ((digitsToNat [y, z] % 60 : ℕ) : ℚ) / 3600 := by
  have hlen : (init ++ [w, x, y, z]).length = init.length + 4 := by simp
  have hs : (init ++ [w, x, y, z]).drop (init.length + 4 - 2) = [y, z] := by
    have h2 : init.length + 4 - 2 = init.length + 2 := by omega
    rw [h2, ← List.drop_drop, List.drop_left]
    rfl
  have hm : ((init ++ [w, x, y, z]).drop (init.length + 4 - 4)).take 2 = [w, x] := by
    have h4 : init.length + 4 - 4 = init.length := by omega
    rw [h4, List.drop_left]
    rfl
  have hd : (init ++ [w, x, y, z]).take (init.length + 4 - 4) = init := by
    have : init.length + 4 - 4 = init.length := by omega
    rw [this, List.take_left]
  have hs0 : digitsToNat [y, z] < 100 := by
    simp [digitsToNat]
    omega
  rw [fcSalvage]
  rw [if_pos (by rw [hlen]; omega)]
  simp only [hlen, hs, hm, hd]
  have hd0 : (if 4 < init.length + 4 then digitsToNat init else 0) = digitsToNat init := by
    rcases init with _ | ⟨i, is⟩
    · simp [digitsToNat]
    · rw [if_pos (by simp only [List.length_cons]; omega)]
  rw [hd0]
  have hm1 : (if 60 ≤ digitsToNat [y, z] then
        digitsToNat [w, x] + digitsToNat [y, z] / 60 else digitsToNat [w, x]) =
      digitsToNat [w, x] + digitsToNat [y, z] / 60 := by
    split_ifs with h
    · rfl
    · omega
  have hs1 : (if 60 ≤ digitsToNat [y, z] then digitsToNat [y, z] % 60
        else digitsToNat [y, z]) = digitsToNat [y, z] % 60 := by
    split_ifs with h
    · rfl
    · omega
  rw [hm1, hs1]
  have hm2 : (if 60 ≤ digitsToNat [w, x] + digitsToNat [y, z] / 60 then
        (digitsToNat [w, x] + digitsToNat [y, z] / 60) % 60
        else digitsToNat [w, x] + digitsToNat [y, z] / 60) =
      (digitsToNat [w, x] + digitsToNat [y, z] / 60) % 60 := by
    split_ifs with h
    · rfl
    · omega
  have hd1 : (if 60 ≤ digitsToNat [w, x] + digitsToNat [y, z] / 60 then
        digitsToNat init + (digitsToNat [w, x] + digitsToNat [y, z] / 60) / 60
        else digitsToNat init) =
      digitsToNat init + (digitsToNat [w, x] + digitsToNat [y, z] / 60) / 60 := by
    split_ifs with h
    · rfl
    · omega
  rw [hm2, hd1]

/-- C10: in `find_cities.py` a digit run rejected by the decoder is never
excluded: for a rejected run of length at least 4, the caller keeps it with
the salvage coordinate (last two digits as seconds, the two before as
minutes, the rest as degrees, seconds at least 60 carried into minutes,
minutes at least 60 carried into degrees, degrees above the axis bound, 180
for columns and 90 for rows, reduced modulo the bound); a rejected run
shorter than 4 digits is kept with the value 0. -/
theorem c10_salvage_keeps_rejected_runs :
    (∀ (init : List Nat) (w x y z : Nat),
      IsDigitRun (init ++ [w, x, y, z]) →
      decodeLat (init ++ [w, x, y, z]) = none →
      fcRowCoord (init ++ [w, x, y, z]) =
        ((if 90 < digitsToNat init + (digitsToNat [w, x] + digitsToNat [y, z] / 60) / 60
          then (digitsToNat init + (digitsToNat [w, x] + digitsToNat [y, z] / 60) / 60) % 90
          else digitsToNat init + (digitsToNat [w, x] + digitsToNat [y, z] / 60) / 60 : ℕ) : ℚ)
        + (((digitsToNat [w, x] + digitsToNat [y, z] / 60) % 60 : ℕ) : ℚ) / 60
        + ((digitsToNat [y, z] % 60 : ℕ) : ℚ) / 3600) ∧
    (∀ (init : List Nat) (w x y z : Nat),
      IsDigitRun (init ++ [w, x, y, z]) →
      decodeLonFC (init ++ [w, x, y, z]) = none →
      fcColCoord (init ++ [w, x, y, z]) =
        ((if 180 < digitsToNat init + (digitsToNat [w, x] + digitsToNat [y, z] / 60) / 60
          then (digitsToNat init + (digitsToNat [w, x] + digitsToNat [y, z] / 60) / 60) % 180
          else digitsToNat init + (digitsToNat [w, x] + digitsToNat [y, z] / 60) / 60 : ℕ) : ℚ)
        + (((digitsToNat [w, x] + digitsToNat [y, z] / 60) % 60 : ℕ) : ℚ) / 60
        + ((digitsToNat [y, z] % 60 : ℕ) : ℚ) / 3600) ∧
    (∀ r : DigitRun, IsDigitRun r → r.length < 4 →
      decodeLat r = none → fcRowCoord r = 0) ∧
    (∀ r : DigitRun, IsDigitRun r → r.length < 4 →
      decodeLonFC r = none → fcColCoord r = 0) := by
  have habs : ∀ (bound : Nat) (init : List Nat) (w x y z : Nat), y < 10 → z < 10 →
      |fcSalvage bound (init ++ [w, x, y, z])| = fcSalvage bound (init ++ [w, x, y, z]) := by
    intro bound init w x y z hy hz
    rw [abs_of_nonneg]
    rw [fcSalvage_append bound init w x y z hy hz]
    positivity
  refine ⟨fun init w x y z hdr hnone => ?_, fun init w x y z hdr hnone => ?_,
    fun r _ hlen hnone => ?_, fun r _ hlen hnone => ?_⟩
  · have hy : y < 10 := hdr y (by simp)
    have hz : z < 10 := hdr z (by simp)
    rw [fcRowCoord, hnone]
    simp only [Option.getD]
    rw [if_pos (by simp), habs 90 init w x y z hy hz,
      fcSalvage_append 90 init w x y z hy hz]
  · have hy : y < 10 := hdr y (by simp)
    have hz : z < 10 := hdr z (by simp)
    rw [fcColCoord, hnone]
    simp only [Option.getD]
    rw [if_pos (by simp), habs 180 init w x y z hy hz,
      fcSalvage_append 180 init w x y z hy hz]
  · rw [fcRowCoord, hnone]
    simp only []
    rw [if_neg (by omega)]
  · rw [fcColCoord, hnone]
    simp only []
    rw [if_neg (by omega)]

/-- C10 witness: the rejected latitude run 9660 (minutes field 60) is kept
with salvage value 1 + 37/60 (seconds 60 carries into minutes 96, minutes 97
carries into degrees), and the rejected 3-digit column run 999 is kept with
value 0. -/
theorem c10_salvage_keeps_rejected_runs_w :
    fcRowCoord [9, 6, 6, 0] = 1 + 37 / 60 ∧ fcColCoord [9, 9, 9] = 0 := by
  constructor
  · have h := c10_salvage_keeps_rejected_runs.1 [] 9 6 6 0 (by decide)
      (by norm_num [decodeLat, digitsToNat, fracFrom, List.take, List.drop])
    simp only [List.nil_append] at h
    rw [h]
    norm_num [digitsToNat]
  · have h := c10_salvage_keeps_rejected_runs.2.2.2 [9, 9, 9] (by decide) (by norm_num)
      (by norm_num [decodeLonFC, lonC322, lonC222, lonC223, lonC232, digitsToNat,
        List.take, List.drop])
    exact h

end TzCoords
